import Mathlib

/-!
Shallow embedding of `maths_worksheet.py` (maths worksheet generator).

Randomness: Python's `random.randint(lo, hi)` draws an integer uniformly from
the inclusive range `[lo, hi]`, and raises `ValueError` when `lo > hi`.  We
model the random source as an explicit stream of naturals together with a
cursor (`Rng`); each draw consumes one stream element and maps it into the
requested range by `lo + s % (hi - lo + 1)`, returning `none` when the range
is empty (the Python exception).  Every value representable in `[lo, hi]` is
realised by some stream, so properties quantified over all `Rng` cover every
possible run of the Python program.
-/

namespace MathsWorksheet

/-- The random source: an infinite stream of naturals and a cursor. -/
structure Rng where
  stream : Nat → Nat
  idx : Nat

/-- Advance the random source past one consumed draw. -/
def rngNext (g : Rng) : Rng := ⟨g.stream, g.idx + 1⟩

/-- The value `random.randint lo hi` yields from the source `g`
(meaningful when `lo ≤ hi`). -/
def randVal (lo hi : Int) (g : Rng) : Int :=
  lo + (g.stream g.idx : Int) % (hi - lo + 1)

/-- `random.randint(lo, hi)`: an integer in `[lo, hi]`, or `none` (Python's
`ValueError`) when the range is empty. -/
def randint (lo hi : Int) (g : Rng) : Option (Int × Rng) :=
  if lo ≤ hi then some (randVal lo hi g, rngNext g) else none

/-- `generate_problem(operation, min_num, max_num)` from
`maths_worksheet.py` lines 79-107.  Returns the `(problem, answer)` pair
together with the advanced random source; `none` models the Python
exception that a non-matching operation string (no branch binds `problem`
or `answer`) or an empty `randint` range raises. -/
def generate_problem (operation : String) (min_num max_num : Int) (g : Rng) :
    Option ((String × Int) × Rng) :=
  if operation = "addition" then
    match randint min_num max_num g with
    | none => none
    | some (a, g1) =>
      match randint min_num max_num g1 with
      | none => none
      | some (b, g2) =>
        some ((toString a ++ " + " ++ toString b, a + b), g2)
  else if operation = "subtraction" then
    match randint min_num max_num g with
    | none => none
    | some (a, g1) =>
      match randint min_num a g1 with
      | none => none
      | some (b, g2) =>
        some ((toString a ++ " - " ++ toString b, a - b), g2)
  else if operation = "multiplication" then
    match randint min_num max_num g with
    | none => none
    | some (a, g1) =>
      match randint min_num max_num g1 with
      | none => none
      | some (b, g2) =>
        some ((toString a ++ " \\times " ++ toString b, a * b), g2)
  else if operation = "division" then
    match randint (max 1 min_num) max_num g with
    | none => none
    | some (b, g1) =>
      match randint min_num max_num g1 with
      | none => none
      | some (answer, g2) =>
        some ((toString (b * answer) ++ " \\div " ++ toString b, answer), g2)
  else
    none

/-- `generate_problems(operation, min_num, max_num, num_questions)` from
`maths_worksheet.py` lines 110-116: call the single-problem generator
`num_questions` times in order, collecting the pairs. -/
def generate_problems (operation : String) (min_num max_num : Int) :
    Nat → Rng → Option (List (String × Int) × Rng)
  | 0, g => some ([], g)
  | n + 1, g =>
    match generate_problem operation min_num max_num g with
    | none => none
    | some (p, g1) =>
      match generate_problems operation min_num max_num n g1 with
      | none => none
      | some (ps, g2) => some (p :: ps, g2)

/-- The `min_num` coercion applied by `get_user_input`
(`maths_worksheet.py` lines 47-51): for division a minimum below 1 is
silently raised to 1. -/
def effective_min (operation : String) (min_num : Int) : Int :=
  if operation = "division" ∧ min_num < 1 then 1 else min_num

/-- Column-count selection from `generate_latex`
(`maths_worksheet.py` lines 137-144). -/
def columns (num_problems : Nat) : Nat :=
  if num_problems ≤ 12 then 3
  else if num_problems ≤ 24 then 4
  else 5

/-- One table cell from `generate_latex` (`maths_worksheet.py` lines
209-212): numbered expression plus either the literal answer
(`show_answers`) or a blank rule line. -/
def makeCell (show_answers : Bool) (q_num : Nat) (problem : String)
    (answer : Int) : String :=
  if show_answers then
    "\\textbf\x7b" ++ toString q_num ++ ".\x7d $" ++ problem ++ "$ & $= " ++
      toString answer ++ "$"
  else
    "\\textbf\x7b" ++ toString q_num ++ ".\x7d $" ++ problem ++
      "$ & $=$ \\rule\x7b1.5cm\x7d\x7b0.4pt\x7d"

/-- The `for i, (problem, answer) in enumerate(problems)` cell stream of
`generate_latex`, starting at index `i` (the loop starts at 0); question
numbers are `i + 1`. -/
def problemCells (show_answers : Bool) :
    Nat → List (String × Int) → List String
  | _, [] => []
  | i, (problem, answer) :: rest =>
    makeCell show_answers (i + 1) problem answer ::
      problemCells show_answers (i + 1) rest

/-- The `while len(row) < columns: row.append(" & ")` padding of
`generate_latex` (lines 218-219). -/
def padRow (c : Nat) (row : List String) : List String :=
  row ++ List.replicate (c - row.length) " & "

/-- The row-accumulation loop of `generate_latex` (lines 206-222): append
the cell to the current row; when the row holds `c` cells or the cell is
the last (`i == len(problems) - 1`), pad and close the row. -/
def packLoop (c total : Nat) : Nat → List String → List String →
    List (List String)
  | _, _, [] => []
  | i, row, cell :: rest =>
    let row2 := row ++ [cell]
    if row2.length = c ∨ i = total - 1 then
      padRow c row2 :: packLoop c total (i + 1) [] rest
    else
      packLoop c total (i + 1) row2 rest

/-- The full table body of `generate_latex`: the problem cells packed into
rows of `columns (len problems)` cells. -/
def tableRows (show_answers : Bool) (problems : List (String × Int)) :
    List (List String) :=
  packLoop (columns problems.length) problems.length 0 []
    (problemCells show_answers 0 problems)

/-- The cell content shared verbatim by worksheet and answer key, as the
spec describes it: the question number and the problem expression. -/
def cellCommon (q_num : Nat) (problem : String) : String :=
  "\\textbf\x7b" ++ toString q_num ++ ".\x7d $" ++ problem

/-- A successful draw lies in the requested inclusive range. -/
theorem randVal_mem (lo hi : Int) (g : Rng) (h : lo ≤ hi) :
    lo ≤ randVal lo hi g ∧ randVal lo hi g ≤ hi := by
  have hne : hi - lo + 1 ≠ 0 := by omega
  have hpos : (0 : Int) < hi - lo + 1 := by omega
  have h1 := Int.emod_nonneg (g.stream g.idx : Int) hne
  have h2 := Int.emod_lt_of_pos (g.stream g.idx : Int) hpos
  unfold randVal
  set r := (g.stream g.idx : Int) % (hi - lo + 1) with hr
  constructor <;> omega

/-- On a nonempty range `randint` succeeds, yielding `randVal`. -/
theorem randint_of_le (lo hi : Int) (g : Rng) (h : lo ≤ hi) :
    randint lo hi g = some (randVal lo hi g, rngNext g) := by
  simp [randint, h]

/-- C1: every division problem from `generate_problem "division"` (with
`min_num < max_num` and effective `min_num ≥ 1`) has its rendered dividend
equal to divisor times the returned answer exactly, a nonzero divisor drawn
from `[max 1 min_num, max_num]`, and a quotient drawn from
`[min_num, max_num]`, the dividend being their product rather than an
independent draw. -/
theorem C1_division_exact (mn mx : Int) (hmin : 1 ≤ mn) (hlt : mn < mx) (g : Rng) :
    ∃ b q g2, max 1 mn ≤ b ∧ b ≤ mx ∧ mn ≤ q ∧ q ≤ mx ∧ b ≠ 0 ∧
      generate_problem "division" mn mx g =
        some ((toString (b * q) ++ " \\div " ++ toString b, q), g2) := by
  have hd : max 1 mn ≤ mx := by omega
  obtain ⟨hb1, hb2⟩ := randVal_mem (max 1 mn) mx g hd
  obtain ⟨hq1, hq2⟩ := randVal_mem mn mx (rngNext g) (le_of_lt hlt)
  refine ⟨randVal (max 1 mn) mx g, randVal mn mx (rngNext g),
    rngNext (rngNext g), hb1, hb2, hq1, hq2, by omega, ?_⟩
  simp [generate_problem, randint_of_le, hd, le_of_lt hlt]

/-- C1 witness: the division theorem instantiated at `min_num = 1`,
`max_num = 10` and a concrete random stream. -/
theorem C1_division_exact_witness :
    (1 : Int) ≤ 1 ∧ (1 : Int) < 10 ∧
    ∃ b q g2, max 1 1 ≤ b ∧ b ≤ 10 ∧ (1 : Int) ≤ q ∧ q ≤ 10 ∧ b ≠ 0 ∧
      generate_problem "division" 1 10 ⟨fun _ => 3, 0⟩ =
        some ((toString (b * q) ++ " \\div " ++ toString b, q), g2) :=
  ⟨by decide, by decide, C1_division_exact 1 10 (by decide) (by decide) ⟨fun _ => 3, 0⟩⟩

/-- C2: every subtraction problem from `generate_problem "subtraction"`
(with `min_num ≤ max_num`) has its second operand drawn from
`[min_num, a]`, hence `b ≤ a`, and its answer `a - b` nonnegative. -/
theorem C2_subtraction_nonneg (mn mx : Int) (h : mn ≤ mx) (g : Rng) :
    ∃ a b g2, mn ≤ a ∧ a ≤ mx ∧ mn ≤ b ∧ b ≤ a ∧ 0 ≤ a - b ∧
      generate_problem "subtraction" mn mx g =
        some ((toString a ++ " - " ++ toString b, a - b), g2) := by
  obtain ⟨ha1, ha2⟩ := randVal_mem mn mx g h
  obtain ⟨hb1, hb2⟩ := randVal_mem mn (randVal mn mx g) (rngNext g) ha1
  refine ⟨randVal mn mx g, randVal mn (randVal mn mx g) (rngNext g),
    rngNext (rngNext g), ha1, ha2, hb1, hb2, by omega, ?_⟩
  simp [generate_problem, randint_of_le, h, ha1]

/-- C2 witness: the subtraction theorem instantiated at `min_num = 0`,
`max_num = 9` and a concrete random stream. -/
theorem C2_subtraction_nonneg_witness :
    (0 : Int) ≤ 9 ∧
    ∃ a b g2, (0 : Int) ≤ a ∧ a ≤ 9 ∧ (0 : Int) ≤ b ∧ b ≤ a ∧ 0 ≤ a - b ∧
      generate_problem "subtraction" 0 9 ⟨fun _ => 4, 0⟩ =
        some ((toString a ++ " - " ++ toString b, a - b), g2) :=
  ⟨by decide, C2_subtraction_nonneg 0 9 (by decide) ⟨fun _ => 4, 0⟩⟩

/-- C8: every addition problem and every multiplication problem returns as
answer the sum, respectively product, of the two operands rendered in the
expression string, both operands lying in `[min_num, max_num]`. -/
theorem C8_add_mul_answer (mn mx : Int) (h : mn ≤ mx) (g : Rng) :
    (∃ a b g2, mn ≤ a ∧ a ≤ mx ∧ mn ≤ b ∧ b ≤ mx ∧
      generate_problem "addition" mn mx g =
        some ((toString a ++ " + " ++ toString b, a + b), g2)) ∧
    (∃ a b g2, mn ≤ a ∧ a ≤ mx ∧ mn ≤ b ∧ b ≤ mx ∧
      generate_problem "multiplication" mn mx g =
        some ((toString a ++ " \\times " ++ toString b, a * b), g2)) := by
  obtain ⟨ha1, ha2⟩ := randVal_mem mn mx g h
  obtain ⟨hb1, hb2⟩ := randVal_mem mn mx (rngNext g) h
  constructor
  · exact ⟨randVal mn mx g, randVal mn mx (rngNext g), rngNext (rngNext g),
      ha1, ha2, hb1, hb2, by simp [generate_problem, randint_of_le, h]⟩
  · exact ⟨randVal mn mx g, randVal mn mx (rngNext g), rngNext (rngNext g),
      ha1, ha2, hb1, hb2, by simp [generate_problem, randint_of_le, h]⟩

/-- C8 witness: the addition/multiplication theorem instantiated at
`min_num = 2`, `max_num = 7` and a concrete random stream. -/
theorem C8_add_mul_answer_witness :
    (2 : Int) ≤ 7 ∧
    ((∃ a b g2, (2 : Int) ≤ a ∧ a ≤ 7 ∧ (2 : Int) ≤ b ∧ b ≤ 7 ∧
      generate_problem "addition" 2 7 ⟨fun _ => 5, 0⟩ =
        some ((toString a ++ " + " ++ toString b, a + b), g2)) ∧
    (∃ a b g2, (2 : Int) ≤ a ∧ a ≤ 7 ∧ (2 : Int) ≤ b ∧ b ≤ 7 ∧
      generate_problem "multiplication" 2 7 ⟨fun _ => 5, 0⟩ =
        some ((toString a ++ " \\times " ++ toString b, a * b), g2))) :=
  ⟨by decide, C8_add_mul_answer 2 7 (by decide) ⟨fun _ => 5, 0⟩⟩

/-- C10: for an operation string other than the four known names no branch
of `generate_problem` binds a result, so the call fails (returns `none`,
modelling the Python exception) instead of producing a pair. -/
theorem C10_unknown_operation (op : String) (mn mx : Int) (g : Rng)
    (h1 : op ≠ "addition") (h2 : op ≠ "subtraction")
    (h3 : op ≠ "multiplication") (h4 : op ≠ "division") :
    generate_problem op mn mx g = none := by
  simp [generate_problem, h1, h2, h3, h4]

/-- C7: the `get_user_input` coercion makes the effective division minimum
at least 1 (below-1 inputs are silently raised to 1, others kept), and with
that effective minimum every value the division generator draws — divisor
and quotient alike — is at least 1. -/
theorem C7_division_min_coerced (mn mx : Int)
    (hlt : effective_min "division" mn < mx) (g : Rng) :
    1 ≤ effective_min "division" mn ∧
    (mn < 1 → effective_min "division" mn = 1) ∧
    (1 ≤ mn → effective_min "division" mn = mn) ∧
    ∃ b q g2, 1 ≤ b ∧ b ≤ mx ∧ 1 ≤ q ∧ q ≤ mx ∧
      generate_problem "division" (effective_min "division" mn) mx g =
        some ((toString (b * q) ++ " \\div " ++ toString b, q), g2) := by
  have hprops : 1 ≤ effective_min "division" mn ∧
      (mn < 1 → effective_min "division" mn = 1) ∧
      (1 ≤ mn → effective_min "division" mn = mn) := by
    unfold effective_min
    split
    next hc => simp at hc; exact ⟨le_refl 1, fun _ => rfl, fun h => by omega⟩
    next hc => simp at hc; exact ⟨by omega, fun h => by omega, fun _ => rfl⟩
  obtain ⟨he, hlow, hkeep⟩ := hprops
  have hm : max 1 (effective_min "division" mn) = effective_min "division" mn :=
    max_eq_right he
  have hd : max 1 (effective_min "division" mn) ≤ mx := by rw [hm]; omega
  obtain ⟨hb1, hb2⟩ := randVal_mem (max 1 (effective_min "division" mn)) mx g hd
  obtain ⟨hq1, hq2⟩ :=
    randVal_mem (effective_min "division" mn) mx (rngNext g) hlt.le
  refine ⟨he, hlow, hkeep,
    randVal (max 1 (effective_min "division" mn)) mx g,
    randVal (effective_min "division" mn) mx (rngNext g),
    rngNext (rngNext g),
    le_trans (le_max_left 1 _) hb1, hb2, by linarith, hq2, ?_⟩
  simp [generate_problem, randint_of_le, hd, hlt.le]

/-- C7 witness: the coercion theorem instantiated at supplied minimum `-3`
and maximum `5` with a concrete random stream. -/
theorem C7_division_min_coerced_witness :
    effective_min "division" (-3) < 5 ∧
    (1 ≤ effective_min "division" (-3) ∧
    ((-3 : Int) < 1 → effective_min "division" (-3) = 1) ∧
    ((1 : Int) ≤ -3 → effective_min "division" (-3) = -3) ∧
    ∃ b q g2, 1 ≤ b ∧ b ≤ 5 ∧ 1 ≤ q ∧ q ≤ 5 ∧
      generate_problem "division" (effective_min "division" (-3)) 5
          ⟨fun _ => 2, 0⟩ =
        some ((toString (b * q) ++ " \\div " ++ toString b, q), g2)) :=
  ⟨by decide, C7_division_min_coerced (-3) 5 (by decide) ⟨fun _ => 2, 0⟩⟩

/-- C9: with `1 ≤ min_num < max_num` every division dividend (the product
rendered in the expression) lies in `[min_num², max_num²]`, and when
`max_num ≥ 2` some random stream yields a dividend strictly greater than
`max_num`. -/
theorem C9_dividend_range (mn mx : Int) (hmin : 1 ≤ mn) (hlt : mn < mx) :
    (∀ g e q g2, generate_problem "division" mn mx g = some ((e, q), g2) →
      ∃ b, e = toString (b * q) ++ " \\div " ++ toString b ∧
        mn * mn ≤ b * q ∧ b * q ≤ mx * mx) ∧
    (2 ≤ mx → ∃ g q g2 b,
      generate_problem "division" mn mx g =
        some ((toString (b * q) ++ " \\div " ++ toString b, q), g2) ∧
      mx < b * q) := by
  have hmax : max 1 mn = mn := max_eq_right hmin
  have hd : max 1 mn ≤ mx := by rw [hmax]; omega
  constructor
  · intro g e q g2 heq
    simp [generate_problem, randint_of_le, hd, hlt.le] at heq
    obtain ⟨⟨he, hq⟩, hg⟩ := heq
    obtain ⟨hb1, hb2⟩ := randVal_mem (max 1 mn) mx g hd
    obtain ⟨hq1, hq2⟩ := randVal_mem mn mx (rngNext g) hlt.le
    have hb1' : mn ≤ randVal (max 1 mn) mx g := le_trans (le_max_right 1 mn) hb1
    refine ⟨randVal (max 1 mn) mx g, ?_, ?_, ?_⟩
    · rw [← he, ← hq]
    · rw [← hq]
      exact mul_le_mul hb1' hq1 (by omega) (by linarith)
    · rw [← hq]
      exact mul_le_mul hb2 hq2 (by linarith) (by omega)
  · intro h2
    have hs : ((mx - mn).toNat : Int) = mx - mn := Int.toNat_of_nonneg (by omega)
    have hmod : (mx - mn) % (mx - mn + 1) = mx - mn :=
      Int.emod_eq_of_lt (by omega) (by omega)
    have hb : randVal (max 1 mn) mx ⟨fun _ => (mx - mn).toNat, 0⟩ = mx := by
      unfold randVal
      simp only [hmax, hs, hmod]
      omega
    have hq : randVal mn mx (rngNext ⟨fun _ => (mx - mn).toNat, 0⟩) = mx := by
      unfold randVal rngNext
      simp only [hs, hmod]
      omega
    refine ⟨⟨fun _ => (mx - mn).toNat, 0⟩, mx,
      rngNext (rngNext ⟨fun _ => (mx - mn).toNat, 0⟩), mx, ?_, by nlinarith⟩
    simp [generate_problem, randint_of_le, hd, hlt.le, hb, hq]

/-- C9 witness: at `min_num = 1`, `max_num = 3`, part one applied to the
concrete stream constantly `1` (dividend `4`), part two producing a
dividend exceeding `3`. -/
theorem C9_dividend_range_witness :
    (∃ b : Int, ("4 \\div 2" : String) =
        toString (b * 2) ++ " \\div " ++ toString b ∧
      (1 : Int) * 1 ≤ b * 2 ∧ b * 2 ≤ 3 * 3) ∧
    (∃ g q g2 b, generate_problem "division" 1 3 g =
        some ((toString (b * q) ++ " \\div " ++ toString b, q), g2) ∧
      (3 : Int) < b * q) :=
  ⟨(C9_dividend_range 1 3 (by decide) (by decide)).1
      ⟨fun _ => 1, 0⟩ "4 \\div 2" 2 ⟨fun _ => 1, 2⟩ (by rfl),
   (C9_dividend_range 1 3 (by decide) (by decide)).2 (by decide)⟩

/-- Under validated inputs every call of the single-problem generator
succeeds. -/
theorem generate_problem_total (op : String) (mn mx : Int)
    (hop : op = "addition" ∨ op = "subtraction" ∨ op = "multiplication" ∨
      op = "division")
    (hlt : mn < mx) (hdiv : op = "division" → 1 ≤ mn) (g : Rng) :
    ∃ p g1, generate_problem op mn mx g = some (p, g1) := by
  rcases hop with h | h | h | h <;> subst h
  · exact ⟨_, _, by simp [generate_problem, randint_of_le, hlt.le]; exact ⟨rfl, rfl⟩⟩
  · obtain ⟨ha1, _⟩ := randVal_mem mn mx g hlt.le
    exact ⟨_, _, by simp [generate_problem, randint_of_le, hlt.le, ha1]; exact ⟨rfl, rfl⟩⟩
  · exact ⟨_, _, by simp [generate_problem, randint_of_le, hlt.le]; exact ⟨rfl, rfl⟩⟩
  · have hd : max 1 mn ≤ mx := by
      have := hdiv rfl
      rw [max_eq_right this]
      omega
    exact ⟨_, _, by simp [generate_problem, randint_of_le, hd, hlt.le]; exact ⟨rfl, rfl⟩⟩

/-- C3: on valid inputs `generate_problems` returns exactly `count`
problems, and each `count = m + 1` run is by definition one call of the
single-problem generator followed by the remaining `m` calls in order (no
cross-problem constraint, no de-duplication). -/
theorem C3_generate_problems_count (op : String) (mn mx : Int)
    (hop : op = "addition" ∨ op = "subtraction" ∨ op = "multiplication" ∨
      op = "division")
    (hlt : mn < mx) (hdiv : op = "division" → 1 ≤ mn) :
    (∀ (n : Nat) (g : Rng), ∃ ps g2,
      generate_problems op mn mx n g = some (ps, g2) ∧ ps.length = n) ∧
    (∀ (m : Nat) (g0 : Rng),
      generate_problems op mn mx (m + 1) g0 =
        match generate_problem op mn mx g0 with
        | none => none
        | some (p, g1) =>
          match generate_problems op mn mx m g1 with
          | none => none
          | some (qs, g3) => some (p :: qs, g3)) := by
  constructor
  · intro n
    induction n with
    | zero => exact fun g => ⟨[], g, rfl, rfl⟩
    | succ k ih =>
      intro g
      obtain ⟨p, g1, hp⟩ := generate_problem_total op mn mx hop hlt hdiv g
      obtain ⟨ps, g2, hps, hlen⟩ := ih g1
      refine ⟨p :: ps, g2, ?_, by simp [hlen]⟩
      simp [generate_problems, hp, hps]
  · intro m g0
    rfl

/-- C3 witness: the count theorem instantiated at addition over `[0, 9]`
with a concrete random stream, `count = 3`. -/
theorem C3_generate_problems_count_witness :
    ("addition" = "addition" ∨ "addition" = "subtraction" ∨
      "addition" = "multiplication" ∨ "addition" = "division") ∧
    (0 : Int) < 9 ∧ ("addition" = "division" → (1 : Int) ≤ 0) ∧
    ∃ ps g2, generate_problems "addition" 0 9 3 ⟨fun _ => 4, 0⟩ =
      some (ps, g2) ∧ ps.length = 3 :=
  ⟨Or.inl rfl, by decide, by decide,
   (C3_generate_problems_count "addition" 0 9 (Or.inl rfl) (by decide)
      (by decide)).1 3 ⟨fun _ => 4, 0⟩⟩

/-- C10 witness: the unknown-operation theorem instantiated at the
operation string `"modulo"`. -/
theorem C10_unknown_operation_witness :
    generate_problem "modulo" 0 9 ⟨fun _ => 0, 0⟩ = none :=
  C10_unknown_operation "modulo" 0 9 ⟨fun _ => 0, 0⟩
    (by decide) (by decide) (by decide) (by decide)

/-- The chosen column count is always positive. -/
theorem columns_pos (n : Nat) : 0 < columns n := by
  unfold columns
  split
  · omega
  · split <;> omega

/-- Padding a row of at most `c` cells yields exactly `c` cells. -/
theorem padRow_length (c : Nat) (row : List String) (h : row.length ≤ c) :
    (padRow c row).length = c := by
  simp [padRow]
  omega

/-- One-step unfolding of the packing loop: no cells left. -/
theorem packLoop_nil (c total i : Nat) (row : List String) :
    packLoop c total i row [] = [] := rfl

/-- One-step unfolding of the packing loop: consume one cell. -/
theorem packLoop_cons (c total i : Nat) (row : List String) (cell : String)
    (rest : List String) :
    packLoop c total i row (cell :: rest) =
      if (row ++ [cell]).length = c ∨ i = total - 1 then
        padRow c (row ++ [cell]) :: packLoop c total (i + 1) [] rest
      else
        packLoop c total (i + 1) (row ++ [cell]) rest := rfl

/-- Every row the packing loop emits has exactly `c` cells. -/
theorem packLoop_row_lengths (c total : Nat) :
    ∀ (cs : List String) (i : Nat) (row : List String),
      i + cs.length = total → row.length < c →
      ∀ r ∈ packLoop c total i row cs, r.length = c := by
  intro cs
  induction cs with
  | nil => intro i row _ _ r hr; simp [packLoop_nil] at hr
  | cons c0 rest ih =>
    intro i row hinv hrow r hr
    rw [packLoop_cons] at hr
    split at hr
    next hcond =>
      rcases List.mem_cons.mp hr with h | h
      · subst h
        exact padRow_length c (row ++ [c0]) (by simp; omega)
      · exact ih (i + 1) [] (by simp at hinv ⊢; omega)
          (by simp only [List.length_nil]; omega) r h
    next hcond =>
      push_neg at hcond
      exact ih (i + 1) (row ++ [c0])
        (by simp at hinv ⊢; omega)
        (by have h1 := hcond.1; simp at h1 ⊢; omega) r hr

/-- Flattening the emitted rows recovers the cells in order, followed only
by fewer than `c` padding cells. -/
theorem packLoop_flatten (c total : Nat) :
    ∀ (cs : List String) (i : Nat) (row : List String),
      i + cs.length = total → row.length < c → cs ≠ [] →
      ∃ k, k < c ∧ (packLoop c total i row cs).flatten =
        row ++ cs ++ List.replicate k " & " := by
  intro cs
  induction cs with
  | nil => intro i row _ _ h; exact absurd rfl h
  | cons c0 rest ih =>
    intro i row hinv hrow _
    cases rest with
    | nil =>
      have hc : i = total - 1 := by simp at hinv; omega
      refine ⟨c - (row.length + 1), by omega, ?_⟩
      rw [packLoop_cons, if_pos (Or.inr hc), packLoop_nil]
      simp [padRow, List.append_assoc]
    | cons c1 rest2 =>
      have hne : i ≠ total - 1 := by simp at hinv; omega
      by_cases hfull : (row ++ [c0]).length = c
      · rw [packLoop_cons, if_pos (Or.inl hfull)]
        obtain ⟨k, hk, hfl⟩ := ih (i + 1) [] (by simp at hinv ⊢; omega)
          (by simp only [List.length_nil]; omega) (by simp)
        refine ⟨k, hk, ?_⟩
        have hpad : padRow c (row ++ [c0]) = row ++ [c0] := by
          simp [padRow, hfull]
        rw [List.flatten_cons, hfl, hpad]
        simp
      · rw [packLoop_cons, if_neg (by push_neg; exact ⟨hfull, hne⟩)]
        obtain ⟨k, hk, hfl⟩ := ih (i + 1) (row ++ [c0])
          (by simp at hinv ⊢; omega)
          (by simp at hfull ⊢; omega) (by simp)
        refine ⟨k, hk, ?_⟩
        rw [hfl]
        simp

/-- The cell stream has one cell per problem. -/
theorem problemCells_length (sa : Bool) :
    ∀ (i : Nat) (ps : List (String × Int)),
      (problemCells sa i ps).length = ps.length := by
  intro i ps
  induction ps generalizing i with
  | nil => rfl
  | cons p rest ih =>
    cases p
    simp [problemCells, ih]

/-- The `j`-th cell of the stream started at `i0` is the cell of the
`j`-th problem, numbered `i0 + j + 1`. -/
theorem problemCells_get? (sa : Bool) :
    ∀ (i0 : Nat) (ps : List (String × Int)) (j : Nat) (p : String × Int),
      ps[j]? = some p →
      (problemCells sa i0 ps)[j]? =
        some (makeCell sa (i0 + j + 1) p.1 p.2) := by
  intro i0 ps
  induction ps generalizing i0 with
  | nil => intro j p h; simp at h
  | cons q rest ih =>
    intro j p h
    cases q with
    | mk e a =>
      cases j with
      | zero =>
        simp only [List.getElem?_cons_zero, Option.some.injEq] at h
        subst h
        simp [problemCells]
      | succ j2 =>
        simp only [List.getElem?_cons_succ] at h
        have hrec := ih (i0 + 1) j2 p h
        have harith : i0 + 1 + j2 + 1 = i0 + (j2 + 1) + 1 := by omega
        rw [harith] at hrec
        simpa [problemCells] using hrec

/-- Both cell variants extend the shared numbered expression. -/
theorem makeCell_split (n : Nat) (p : String) (a : Int) :
    makeCell false n p a =
      cellCommon n p ++ "$ & $=$ \\rule\x7b1.5cm\x7d\x7b0.4pt\x7d" ∧
    makeCell true n p a =
      cellCommon n p ++ "$ & $= " ++ toString a ++ "$" :=
  ⟨rfl, rfl⟩

/-- C4: the column count is 3 for at most 12 problems, 4 for 13 to 24, and
5 above 24; in particular 12 → 3, 13 → 4, 24 → 4, 25 → 5. -/
theorem C4_column_policy :
    (∀ n : Nat, (n ≤ 12 → columns n = 3) ∧
      (12 < n → n ≤ 24 → columns n = 4) ∧ (24 < n → columns n = 5)) ∧
    columns 12 = 3 ∧ columns 13 = 4 ∧ columns 24 = 4 ∧ columns 25 = 5 := by
  refine ⟨fun n => ⟨fun h => ?_, fun h1 h2 => ?_, fun h => ?_⟩,
    by decide, by decide, by decide, by decide⟩
  · unfold columns
    rw [if_pos h]
  · unfold columns
    rw [if_neg (by omega), if_pos h2]
  · unfold columns
    rw [if_neg (by omega), if_neg (by omega)]

/-- C4 witness: the policy theorem applied at 13 problems. -/
theorem C4_column_policy_witness : columns 13 = 4 :=
  (C4_column_policy.1 13).2.1 (by decide) (by decide)

/-- C5: for a nonempty problem list every emitted table row has exactly
`columns` cells, and flattening the rows yields the problem cells in order
followed only by (fewer than `columns`) padding cells — the last row is
padded and no reordering occurs. -/
theorem C5_grid_rectangular (sa : Bool) (ps : List (String × Int))
    (hne : ps ≠ []) :
    (∀ row ∈ tableRows sa ps, row.length = columns ps.length) ∧
    ∃ k, k < columns ps.length ∧
      (tableRows sa ps).flatten =
        problemCells sa 0 ps ++ List.replicate k " & " := by
  have hlen : (problemCells sa 0 ps).length = ps.length :=
    problemCells_length sa 0 ps
  have hcne : problemCells sa 0 ps ≠ [] := by
    intro hcontra
    rw [hcontra] at hlen
    exact hne (List.length_eq_zero.mp hlen.symm)
  constructor
  · intro r hr
    unfold tableRows at hr
    exact packLoop_row_lengths (columns ps.length) ps.length
      (problemCells sa 0 ps) 0 [] (by simp [hlen])
      (by simp only [List.length_nil]; exact columns_pos ps.length) r hr
  · obtain ⟨k, hk, hfl⟩ := packLoop_flatten (columns ps.length) ps.length
      (problemCells sa 0 ps) 0 [] (by simp [hlen])
      (by simp only [List.length_nil]; exact columns_pos ps.length) hcne
    refine ⟨k, hk, ?_⟩
    unfold tableRows
    simpa using hfl

/-- C5 witness: the grid theorem applied to a concrete one-problem list. -/
theorem C5_grid_rectangular_witness :
    ([(("1 + 1" : String), (2 : Int))] ≠ []) ∧
    ((∀ row ∈ tableRows false [(("1 + 1" : String), (2 : Int))],
        row.length = columns [(("1 + 1" : String), (2 : Int))].length) ∧
    ∃ k, k < columns [(("1 + 1" : String), (2 : Int))].length ∧
      (tableRows false [(("1 + 1" : String), (2 : Int))]).flatten =
        problemCells false 0 [(("1 + 1" : String), (2 : Int))] ++
          List.replicate k " & ") :=
  ⟨by simp, C5_grid_rectangular false [(("1 + 1" : String), (2 : Int))]
    (by simp)⟩

/-- C6: worksheet (`show_answers = false`) and answer key
(`show_answers = true`) produce cell lists of the same length in which the
`j`-th cells share the same numbered expression `cellCommon (j+1)`; they
differ only in the answer-cell tail — a blank rule line versus the literal
computed answer. -/
theorem C6_worksheet_vs_key (ps : List (String × Int)) :
    (problemCells false 0 ps).length = (problemCells true 0 ps).length ∧
    ∀ (j : Nat) (p : String × Int), ps[j]? = some p →
      (problemCells false 0 ps)[j]? =
        some (cellCommon (j + 1) p.1 ++
          "$ & $=$ \\rule\x7b1.5cm\x7d\x7b0.4pt\x7d") ∧
      (problemCells true 0 ps)[j]? =
        some (cellCommon (j + 1) p.1 ++ "$ & $= " ++ toString p.2 ++ "$") := by
  refine ⟨by rw [problemCells_length, problemCells_length], ?_⟩
  intro j p h
  rw [problemCells_get? false 0 ps j p h, problemCells_get? true 0 ps j p h]
  have h0 : 0 + j + 1 = j + 1 := by omega
  rw [h0, (makeCell_split (j + 1) p.1 p.2).1, (makeCell_split (j + 1) p.1 p.2).2]
  exact ⟨rfl, rfl⟩

/-- C6 witness: the equivalence theorem applied to a concrete one-problem
list at index 0. -/
theorem C6_worksheet_vs_key_witness :
    (problemCells false 0 [(("1 + 1" : String), (2 : Int))]).length =
      (problemCells true 0 [(("1 + 1" : String), (2 : Int))]).length ∧
    ((problemCells false 0 [(("1 + 1" : String), (2 : Int))])[0]? =
      some (cellCommon 1 "1 + 1" ++
        "$ & $=$ \\rule\x7b1.5cm\x7d\x7b0.4pt\x7d") ∧
    (problemCells true 0 [(("1 + 1" : String), (2 : Int))])[0]? =
      some (cellCommon 1 "1 + 1" ++ "$ & $= " ++ toString (2 : Int) ++ "$")) :=
  ⟨(C6_worksheet_vs_key [(("1 + 1" : String), (2 : Int))]).1,
   (C6_worksheet_vs_key [(("1 + 1" : String), (2 : Int))]).2 0 ("1 + 1", 2) rfl⟩

end MathsWorksheet
